import Mathlib

/-!
# Verification of the stock-api core components

A shallow embedding, in Lean 4, of the algorithmic core of the `stock-api`
repository: the classification engine (`classify_stock.go`), the scoring and
ranking engine (`best_investments.go`), the filter translator and count cache
(`db_repository.go`), the query orchestrator (`stock_service.go`) and the
persistence hooks of the domain model (`stock.go`).

Modelling conventions:
* Go `float64` prices and scores are modelled as exact rationals (`ℚ`);
  the formulas in scope only use field arithmetic and comparisons.
* `strconv.ParseFloat` is modelled for plain decimal literals
  (optional sign, digits, optional fractional part), which covers the
  currency strings the system manipulates; exponents, hex floats and
  `Inf`/`NaN` forms are outside the model.
* Fallible Go code (including `panic`) is modelled with `Option`/`Except`.
* `sort.Slice` is modelled relationally by its documented contract: the
  result is a permutation of the input that is sorted with respect to the
  provided comparison.  The contract does not promise stability, so the
  relation deliberately admits every sorted permutation.
* Go maps that only carry set semantics (the label set built by `Classify`)
  are modelled as lists in insertion order; properties about them are stated
  through membership.
-/

namespace StockApi

/-! ## String utilities (models of the Go `strings` package functions used) -/

/-- Model of `strings.Contains(hay, needle)` on character lists. -/
def containsSub (hay needle : List Char) : Bool :=
  match hay with
  | [] => needle.isEmpty
  | _ :: t => needle.isPrefixOf hay || containsSub t needle

/-- Model of `strings.Contains` on strings. -/
def goContains (s sub : String) : Bool :=
  containsSub s.toList sub.toList

/-- Model of `strings.ToLower`, restricted to ASCII case mapping
(the repository only feeds it ASCII analyst-action text). -/
def toLowerStr (s : String) : String :=
  String.mk (s.toList.map Char.toLower)

/-- Model of `strings.EqualFold`, restricted to ASCII case folding. -/
def eqFold (a b : String) : Bool :=
  toLowerStr a == toLowerStr b

/-! ## Decimal parsing (model of `strconv.ParseFloat` on decimal literals) -/

/-- Value of a digit string, most significant digit first. -/
def digitsVal (l : List Char) : ℕ :=
  l.foldl (fun n c => 10 * n + (c.toNat - '0'.toNat)) 0

/-- An unsigned decimal literal scanned from a character list:
integer part, fractional part, number of fractional digits.
Accepts `123`, `123.45`, `123.`, `.45`; rejects empty input, a bare dot and
any non-digit character, as `strconv.ParseFloat` does on such inputs. -/
def scanDecimal (l : List Char) : Option (ℕ × ℕ × ℕ) :=
  let ip := l.takeWhile Char.isDigit
  let rest := l.drop ip.length
  match rest with
  | [] => if ip.isEmpty then none else some (digitsVal ip, 0, 0)
  | '.' :: frac =>
    if frac.all Char.isDigit && (!ip.isEmpty || !frac.isEmpty) then
      some (digitsVal ip, digitsVal frac, frac.length)
    else none
  | _ => none

/-- A scanned decimal literal together with its sign. -/
structure FloatLit where
  neg : Bool
  intPart : ℕ
  fracPart : ℕ
  fracLen : ℕ
deriving DecidableEq

/-- Scan an optionally signed decimal literal. -/
def scanFloat (l : List Char) : Option FloatLit :=
  match l with
  | '+' :: rest => (scanDecimal rest).map (fun p => ⟨false, p.1, p.2.1, p.2.2⟩)
  | '-' :: rest => (scanDecimal rest).map (fun p => ⟨true, p.1, p.2.1, p.2.2⟩)
  | _ => (scanDecimal l).map (fun p => ⟨false, p.1, p.2.1, p.2.2⟩)

/-- The rational value denoted by a scanned decimal literal. -/
def ratOfLit (f : FloatLit) : ℚ :=
  let mag : ℚ := (f.intPart : ℚ) + (f.fracPart : ℚ) / 10 ^ f.fracLen
  if f.neg then -mag else mag

/-- Model of `strconv.ParseFloat` on plain decimal literals. -/
def parseGoFloat (s : String) : Option ℚ :=
  (scanFloat s.toList).map ratOfLit

/-- Model of `service.parsePrice` (`classify_stock.go`): remove every `$`
(`strings.ReplaceAll(priceStr, "$", "")`) and parse the rest as a float. -/
def parsePrice (s : String) : Option ℚ :=
  parseGoFloat (String.mk (s.toList.filter (fun c => !(c == '$'))))

/-- Model of `domain.parseCurrencyToFloat` (`stock.go`): remove every `$`
and every `,`, then parse the rest as a float. -/
def parseCurrencyToFloat (s : String) : Option ℚ :=
  parseGoFloat (String.mk (s.toList.filter (fun c => !(c == '$' || c == ','))))

/-! ## Domain model -/

/-- The `domain.Stock` entity, restricted to the fields the verified
components read.  `Classifications` is a list of label strings. -/
structure Stock where
  ticker : String
  targetFrom : String
  targetTo : String
  company : String
  action : String
  brokerage : String
  ratingFrom : String
  ratingTo : String
  classifications : List String
deriving DecidableEq

/-- The derived `domain.Recommendation` record. -/
structure Recommendation where
  position : ℕ
  ticker : String
  company : String
  score : ℚ
  rationale : String
deriving DecidableEq

/-- Model of `domain.calculateUpsidePotential`: parse both target prices as
currency, fail on a parse error or a zero `targetFrom`, otherwise return the
percentage change. -/
def calculateUpsidePotential (fromStr toStr : String) : Except String ℚ :=
  match parseCurrencyToFloat fromStr with
  | none => .error "targetFrom: formato de moneda invalido"
  | some fromV =>
    match parseCurrencyToFloat toStr with
    | none => .error "targetTo: formato de moneda invalido"
    | some toV =>
      if fromV = 0 then .error "no se puede dividir por cero"
      else .ok ((toV - fromV) / fromV * 100)

/-- Model of the `Stock.GetUpside` method. -/
def GetUpside (s : Stock) : Except String ℚ :=
  calculateUpsidePotential s.targetFrom s.targetTo

/-! ## Scoring and ranking engine (`best_investments.go`) -/

/-- Points contributed by one classification label in `calculateScore`. -/
def classificationBonus : String → ℚ
  | "Potential Growth" => 30
  | "Bullish Signal" => 25
  | "New Coverage" => 20
  | "Analyst Positive" => 15
  | "Tech" => 10
  | "Biotech" => 8
  | _ => 0

/-- Points contributed by the final analyst rating in `calculateScore`. -/
def ratingBonus : String → ℚ
  | "Strong-Buy" => 40
  | "Outperform" => 30
  | "Buy" => 20
  | _ => 0

/-- Model of `service.calculateScore`.  The Go function panics when
`GetUpside` fails; the panic is modelled as `Except.error`. -/
def calculateScore (s : Stock) : Except String ℚ :=
  match GetUpside s with
  | .error e => .error e
  | .ok upside =>
    let base := min (upside * 2) 100
    let afterClass := s.classifications.foldl (fun acc c => acc + classificationBonus c) base
    .ok (afterClass + ratingBonus s.ratingTo)

/-- Simplified model of `strconv.FormatFloat(x, 'f', 1, 64)`: one decimal
digit, rounding to the nearest tenth. -/
def formatFloat1 (q : ℚ) : String :=
  let scaled : ℤ := round (q * 10)
  let sign := if scaled < 0 then "-" else ""
  let n := scaled.natAbs
  sign ++ toString (n / 10) ++ "." ++ toString (n % 10)

/-- The extra rationale text contributed by one classification label. -/
def rationaleOfLabel : String → Option String
  | "Bullish Signal" => some "Recent upgrade"
  | "New Coverage" => some "New coverage"
  | "Tech" => some "Technology sector"
  | "Biotech" => some "Biotechnology sector"
  | _ => none

/-- Model of `service.getRationale`; the Go panic on an unparsable price is
modelled as `Except.error`. -/
def getRationale (s : Stock) : Except String String :=
  match GetUpside s with
  | .error e => .error e
  | .ok upside =>
    let reasons :=
      (if upside > 10 then ["Potential of " ++ formatFloat1 upside ++ "%"] else [])
        ++ s.classifications.filterMap rationaleOfLabel
    .ok (if reasons.isEmpty then "Solid fundamentals" else String.intercalate ", " reasons)

/-- One iteration of the response-building loop of `GetStockRecommendations`:
build the recommendation at 1-based position `pos` from one stock. -/
def mkRecommendation (pos : ℕ) (s : Stock) : Except String Recommendation := do
  let sc ← calculateScore s
  let ra ← getRationale s
  .ok ⟨pos, s.ticker, s.company, sc, ra⟩

/-- The response-building loop of `GetStockRecommendations`, starting at
position `pos`; the first failing stock aborts the loop, as the Go panic
does. -/
def buildRecsFrom (pos : ℕ) : List Stock → Except String (List Recommendation)
  | [] => .ok []
  | s :: rest => do
    let r ← mkRecommendation pos s
    let rs ← buildRecsFrom (pos + 1) rest
    .ok (r :: rs)

/-- The score used by the `sort.Slice` comparator, with an arbitrary default
on the (panicking) error case. -/
def scoreD (s : Stock) : ℚ :=
  ((calculateScore s).toOption).getD 0

/-- Relational model of the `sort.Slice(stocks, ...)` call in
`GetStockRecommendations`: the slice contents after the call are a
permutation of the input that is sorted — for every pair in order, the later
score does not exceed the earlier one.  Go documents `sort.Slice` as not
guaranteed to be stable, so no further constraint is imposed. -/
def sortSliceSpec (stocks sorted : List Stock) : Prop :=
  stocks.Perm sorted ∧ sorted.Pairwise (fun a b => scoreD b ≤ scoreD a)

/-- Model of `service.GetStockRecommendations` after the in-place sort:
`sorted` is the slice contents chosen by `sort.Slice` (see `sortSliceSpec`),
`limit` is clamped to the slice length, and the response loop builds one
recommendation per retained stock. -/
def GetStockRecommendations (sorted : List Stock) (limit : ℕ) : Except String (List Recommendation) :=
  let limit' := if limit > sorted.length then sorted.length else limit
  buildRecsFrom 1 (sorted.take limit')

/-! ## Classification engine (`classify_stock.go`) -/

/-- The Biotech keyword test of the sector switch. -/
def biotechMatch (c : String) : Bool :=
  goContains c "Medical" || goContains c "Therapeutics" ||
    goContains c "Biopharma" || goContains c "Pharma"

/-- The Tech keyword test of the sector switch. -/
def techMatch (c : String) : Bool :=
  goContains c "Tech" || goContains c "Software" || goContains c "Group" ||
    goContains c "Systems" || goContains c "Solutions"

/-- The Financial keyword test of the sector switch. -/
def financialMatch (c : String) : Bool :=
  goContains c "Financial" || goContains c "Bank" || goContains c "Banc" ||
    goContains c "Capital" || goContains c "Insurance" ||
    goContains c "Investments" || goContains c "Advisors"

/-- The Energy keyword test of the sector switch. -/
def energyMatch (c : String) : Bool :=
  goContains c "Energy" || goContains c "Resources" ||
    goContains c "Petroleum" || goContains c "Gas"

/-- Step 1 of `Classify`: the sector label derived from the company name;
the switch falls back to `Other Sector`. -/
def sectorLabel (c : String) : String :=
  if biotechMatch c then "Biotech"
  else if techMatch c then "Tech"
  else if financialMatch c then "Financial"
  else if energyMatch c then "Energy"
  else "Other Sector"

/-- Step 2 of `Classify`: the target-price momentum labels.  Both prices
must parse and the starting price must be strictly positive; otherwise the
source contributes nothing. -/
def momentumLabels (s : Stock) : List String :=
  match parsePrice s.targetFrom, parsePrice s.targetTo with
  | some priceFrom, some priceTo =>
    if 0 < priceFrom then
      let changePct := (priceTo - priceFrom) / priceFrom * 100
      if changePct < -20 then ["High-Risk Speculative"]
      else if changePct > 10 then ["Potential Growth"]
      else []
    else []
  | _, _ => []

/-- Step 3 of `Classify`: the analyst-action label (first match wins). -/
def actionLabels (action : String) : List String :=
  let a := toLowerStr action
  if goContains a "upgraded" then ["Bullish Signal"]
  else if goContains a "downgraded" then ["Bearish Signal"]
  else if goContains a "initiated" then ["New Coverage"]
  else []

/-- Step 4 of `Classify`: the rating label. -/
def ratingLabels (r : String) : List String :=
  if r == "Buy" || r == "Outperform" || r == "Strong-Buy" then ["Analyst Positive"]
  else if r == "Sell" || r == "Underweight" then ["Analyst Negative"]
  else []

/-- Model of `ClassificationService.Classify`: the label set assigned to the
stock, as a list in insertion order (the Go code collects the labels in a
map, so only the set of labels is meaningful).  Step 5 of the source assigns
`Neutral` when no label was produced. -/
def classify (s : Stock) : List String :=
  let labels :=
    [sectorLabel s.company] ++ momentumLabels s ++ actionLabels s.action
      ++ ratingLabels s.ratingTo
  if labels.isEmpty then ["Neutral"] else labels

/-- The no-rule-matches condition: none of the four classification sources
(sector keywords, target-price momentum, analyst action, rating) fires. -/
def noRuleMatches (s : Stock) : Prop :=
  (biotechMatch s.company || techMatch s.company || financialMatch s.company
      || energyMatch s.company) = false
    ∧ momentumLabels s = []
    ∧ actionLabels s.action = []
    ∧ ratingLabels s.ratingTo = []

instance (s : Stock) : Decidable (noRuleMatches s) := by
  unfold noRuleMatches; infer_instance

/-! ## Filter translator (`db_repository.go`, `applyFilter` and `Find`) -/

/-- A dynamically typed filter value, as carried by the Go `interface{}`
field `Filter.Value` after JSON binding or direct construction: a string, a
string slice, a slice of opaque values, a number, or a boolean. -/
inductive GoValue where
  | str (s : String)
  | strList (l : List String)
  | anyList (l : List GoValue)
  | num (n : ℤ)
  | boolean (b : Bool)

/-- The `domain.Filter` pair of a value and a match mode. -/
structure Filter where
  value : GoValue
  matchMode : String

/-- The errors `applyFilter` can return.  `invalidValueTypeInArray` models
`"invalid value type in array for field ...: expected string"`,
`invalidValueType` models
`"invalid value type for field ...: expected string or []string"`, and
`unsupportedMatchMode` models
`"unsupported match mode for array field: ..."`. -/
inductive FilterErr where
  | invalidValueTypeInArray (field : String)
  | invalidValueType (field : String)
  | unsupportedMatchMode (mode : String)
deriving DecidableEq

/-- Whether a filter error is one of the two invalid-value-type errors. -/
def FilterErr.isInvalidValueType : FilterErr → Bool
  | .invalidValueTypeInArray _ => true
  | .invalidValueType _ => true
  | .unsupportedMatchMode _ => false

/-- A query condition added by `applyFilter`, modelled abstractly as the
operator applied together with its operands (the SQL text produced by GORM
is outside the model). -/
inductive Cond where
  | arrayCond (op : String) (arr : List String)
  | scalarCond (mode : String) (field : String) (v : GoValue)

/-- Error-propagating map over a list, mirroring a Go loop whose body can
return early with an error. -/
def mapExcept (f : α → Except ε β) : List α → Except ε (List β)
  | [] => .ok []
  | a :: l => do
    let b ← f a
    let bs ← mapExcept f l
    .ok (b :: bs)

/-- The `switch v := filter.Value.(type)` block of `applyFilter` for the
`classifications` field: normalise the value to a string slice or fail. -/
def extractStringArr (field : String) : GoValue → Except FilterErr (List String)
  | .str s => .ok [s]
  | .strList l => .ok l
  | .anyList l =>
    mapExcept
      (fun v =>
        match v with
        | .str s => .ok s
        | _ => .error (.invalidValueTypeInArray field))
      l
  | _ => .error (.invalidValueType field)

/-- The match modes of the `classifications` branch of `applyFilter`. -/
def arrayMatchModes : List String :=
  ["equals", "contains", "contained", "overlap",
   "notEquals", "notContains", "notContained", "notOverlap"]

/-- The match modes of the scalar branch of `applyFilter`. -/
def scalarMatchModes : List String :=
  ["equals", "contains", "startsWith", "endsWith", "greaterThan", "lessThan"]

/-- Model of `repository.applyFilter` (the current version, returning an
error): the `classifications` field goes through the array branch, every
other field through the scalar branch; an unknown match mode is an error in
both branches. -/
def applyFilter (conds : List Cond) (field : String) (filter : Filter) :
    Except FilterErr (List Cond) :=
  if field == "classifications" then
    match extractStringArr field filter.value with
    | .error e => .error e
    | .ok arr =>
      if arrayMatchModes.contains filter.matchMode then
        .ok (conds ++ [.arrayCond filter.matchMode arr])
      else
        .error (.unsupportedMatchMode filter.matchMode)
  else
    if scalarMatchModes.contains filter.matchMode then
      .ok (conds ++ [.scalarCond filter.matchMode field filter.value])
    else
      .error (.unsupportedMatchMode filter.matchMode)

/-- The filter loop of `StockBDRepository.Find` (and of the `Count`
callback): apply every filter in turn, aborting on the first error. -/
def applyFilters : List Cond → List (String × Filter) → Except FilterErr (List Cond)
  | conds, [] => .ok conds
  | conds, (field, filter) :: rest =>
    match applyFilter conds field filter with
    | .error e => .error e
    | .ok conds2 => applyFilters conds2 rest

/-! ## Query orchestrator (`StockService.Find`) -/

/-- The pagination parameters of `domain.PaginationParams`; Go `int` fields
are modelled as integers. -/
structure PaginationParams where
  page : ℤ
  pageSize : ℤ
  sortField : String
  sortOrder : ℤ
deriving DecidableEq

/-- The structured validation and repository errors `StockService.Find`
produces; each validation error carries the offending value or field, as the
`fmt.Errorf` messages in the source do. -/
inductive FindError where
  | invalidPage (n : ℤ)
  | invalidPageSize (n : ℤ)
  | invalidSortField (f : String)
  | invalidSortOrder (n : ℤ)
  | invalidFilterField (f : String)
  | repoError (e : String)
deriving DecidableEq

/-- The struct field names of `domain.Stock` visible to reflection,
including the embedded `gorm.Model` field.  No field of the struct carries a
`column:` gorm tag, so `GormFieldValidator.checkField` reduces to a
case-insensitive comparison with these names. -/
def stockFieldNames : List String :=
  ["Model", "Ticker", "TargetFrom", "TargetTo", "Company", "Action",
   "Brokerage", "RatingFrom", "RatingTo", "Time", "Classifications"]

/-- Model of `GormFieldValidator.IsValidField` for the `Stock` model (the
per-process cache only memoises this pure check). -/
def isValidField (f : String) : Bool :=
  stockFieldNames.any (fun n => eqFold n f)

/-- The first filter field rejected by the allowlist, if any, following the
validation loop of `StockService.Find`. -/
def firstInvalidFilterField : List (String × Filter) → Option String
  | [] => none
  | (field, _) :: rest =>
    if isValidField field then firstInvalidFilterField rest else some field

/-- Model of `StockService.Find`.  The repository collaborators are
abstracted by their outcomes `repoFind` and `repoCount`; the validation
steps appear in the order of the source: page, page size, defaulting of the
sort field and the sort order, sort-field allowlist check, sort-order value
check, filter-field allowlist check. -/
def Find (repoFind : Except String (List Stock)) (repoCount : Except String ℤ)
    (p : PaginationParams) (filters : List (String × Filter)) :
    Except FindError (List Stock × ℤ) :=
  if p.page ≤ 0 then .error (.invalidPage p.page)
  else if p.pageSize ≤ 0 then .error (.invalidPageSize p.pageSize)
  else
    let sortField := if p.sortField = "" then "time" else p.sortField
    let sortOrder := if p.sortOrder = 0 then -1 else p.sortOrder
    if sortField ≠ "" ∧ ¬ isValidField sortField then
      .error (.invalidSortField sortField)
    else if sortOrder ≠ 1 ∧ sortOrder ≠ -1 then
      .error (.invalidSortOrder sortOrder)
    else
      match firstInvalidFilterField filters with
      | some f => .error (.invalidFilterField f)
      | none =>
        match repoFind with
        | .error e => .error (.repoError e)
        | .ok rows =>
          match repoCount with
          | .error e => .error (.repoError e)
          | .ok total => .ok (rows, total)

/-- The validation sequence exactly as the claim lists it (the sort-order
value check before the sort-field allowlist check); used to compare the
claimed order with the order the source implements. -/
def findClaimOrder (repoFind : Except String (List Stock)) (repoCount : Except String ℤ)
    (p : PaginationParams) (filters : List (String × Filter)) :
    Except FindError (List Stock × ℤ) :=
  if p.page ≤ 0 then .error (.invalidPage p.page)
  else if p.pageSize ≤ 0 then .error (.invalidPageSize p.pageSize)
  else
    let sortField := if p.sortField = "" then "time" else p.sortField
    let sortOrder := if p.sortOrder = 0 then -1 else p.sortOrder
    if sortOrder ≠ 1 ∧ sortOrder ≠ -1 then
      .error (.invalidSortOrder sortOrder)
    else if sortField ≠ "" ∧ ¬ isValidField sortField then
      .error (.invalidSortField sortField)
    else
      match firstInvalidFilterField filters with
      | some f => .error (.invalidFilterField f)
      | none =>
        match repoFind with
        | .error e => .error (.repoError e)
        | .ok rows =>
          match repoCount with
          | .error e => .error (.repoError e)
          | .ok total => .ok (rows, total)

/-! ## Persistence hooks (`stock.go`) -/

/-- Model of the `Stock.BeforeCreate` GORM hook: substitute `["Neutral"]`
for an empty classification list before the row is written. -/
def beforeCreate (s : Stock) : Stock :=
  if s.classifications.isEmpty then { s with classifications := ["Neutral"] } else s

/-- Model of `StringArray.Value`: the driver value sent to the database,
modelled as the list of strings it carries; an empty array is replaced by
`["Neutral"]`. -/
def stringArrayValue (sa : List String) : List String :=
  if sa.isEmpty then ["Neutral"] else sa

/-- Modelled from the spec: the storage collaborator (the relational store,
an external collaborator not part of the repository) stores the driver value
produced by `StringArray.Value` and `StringArray.Scan` reads it back
unchanged, so the read-back is the identity on the array content. -/
def storageRoundTrip (v : List String) : List String := v

/-- Persist a stock (running the `BeforeCreate` hook and serialising the
classifications with `StringArray.Value`) and read the classifications
back. -/
def persistAndReread (s : Stock) : List String :=
  storageRoundTrip (stringArrayValue (beforeCreate s).classifications)

/-! ## Spec-side definitions

Definitions written from the wording of the specification and the claims,
used to compare the claimed behaviour with the behaviour of the source. -/

/-- The fixed label point table exactly as the claim words it. -/
def specLabelTable (l : String) : ℚ :=
  if l = "Potential Growth" then 30
  else if l = "Bullish Signal" then 25
  else if l = "New Coverage" then 20
  else if l = "Analyst Positive" then 15
  else if l = "Tech" then 10
  else if l = "Biotech" then 8
  else 0

/-- The rating bonus exactly as the claim words it. -/
def specRatingBonus (r : String) : ℚ :=
  if r = "Strong-Buy" then 40
  else if r = "Outperform" then 30
  else if r = "Buy" then 20
  else 0

/-- The score formula as the claim states it: the growth contribution
`min(upside * 2, 100)`, plus the label table summed over the labels, plus
the rating bonus. -/
def specScore (labels : List String) (rating : String) (upside : ℚ) : ℚ :=
  min (upside * 2) 100 + (labels.map specLabelTable).sum + specRatingBonus rating

/-- The accepted value shapes for a `classifications` filter, as the claim
words them: a single string, a sequence of strings, or a sequence of opaque
values each being a string. -/
def wellTypedClassValue : GoValue → Prop
  | .str _ => True
  | .strList _ => True
  | .anyList l => ∀ v ∈ l, ∃ s, v = GoValue.str s
  | .num _ => False
  | .boolean _ => False

/-! ## Concrete fixtures used by counterexamples and witnesses -/

/-- A stock with upside 10 percent and no bonuses: score 20. -/
def stockA : Stock := ⟨"AAA", "$100.00", "$110.00", "", "", "", "", "", []⟩

/-- A second stock with the same prices as `stockA`, hence the same score. -/
def stockB : Stock := ⟨"BBB", "$100.00", "$110.00", "", "", "", "", "", []⟩

/-- A stock none of whose fields matches any classification rule. -/
def emptyStock : Stock := ⟨"", "", "", "", "", "", "", "", []⟩

/-- A stock whose `targetFrom` parses to a negative price. -/
def negStock : Stock := ⟨"NEG", "-10", "$10", "", "", "", "", "", []⟩

/-- A stock whose target prices drop by 30 percent. -/
def hrStock : Stock := ⟨"HRS", "$100.00", "$70.00", "", "", "", "", "", []⟩

/-- A stock with an unparsable `targetFrom`. -/
def badStock : Stock := ⟨"BAD", "N/A", "$10.00", "", "", "", "", "", []⟩

/-- The highest-scoring stock of the repository's own ranking test. -/
def aaplStock : Stock :=
  ⟨"AAPL", "$100.00", "$115.00", "Apple Inc.", "", "", "", "Strong-Buy",
    ["Potential Growth", "Bullish Signal"]⟩

/-- A stock whose classifications are empty at persistence time. -/
def unlabeledStock : Stock := ⟨"UNL", "$1.00", "$1.00", "Some Co", "", "", "", "", []⟩

/-! ## Evaluation lemmas for the concrete fixtures -/

theorem parseCurrency_100 : parseCurrencyToFloat "$100.00" = some 100 := by
  rw [show parseCurrencyToFloat "$100.00" = some (ratOfLit ⟨false, 100, 0, 2⟩) from rfl]
  norm_num [ratOfLit]

theorem parseCurrency_110 : parseCurrencyToFloat "$110.00" = some 110 := by
  rw [show parseCurrencyToFloat "$110.00" = some (ratOfLit ⟨false, 110, 0, 2⟩) from rfl]
  norm_num [ratOfLit]

theorem parseCurrency_NA : parseCurrencyToFloat "N/A" = none := rfl

theorem parseCurrency_115 : parseCurrencyToFloat "$115.00" = some 115 := by
  rw [show parseCurrencyToFloat "$115.00" = some (ratOfLit ⟨false, 115, 0, 2⟩) from rfl]
  norm_num [ratOfLit]

theorem parsePrice_100 : parsePrice "$100.00" = some 100 := by
  rw [show parsePrice "$100.00" = some (ratOfLit ⟨false, 100, 0, 2⟩) from rfl]
  norm_num [ratOfLit]

theorem parsePrice_70 : parsePrice "$70.00" = some 70 := by
  rw [show parsePrice "$70.00" = some (ratOfLit ⟨false, 70, 0, 2⟩) from rfl]
  norm_num [ratOfLit]

theorem parsePrice_neg10 : parsePrice "-10" = some (-10) := by
  rw [show parsePrice "-10" = some (ratOfLit ⟨true, 10, 0, 0⟩) from rfl]
  norm_num [ratOfLit]

theorem parsePrice_10 : parsePrice "$10" = some 10 := by
  rw [show parsePrice "$10" = some (ratOfLit ⟨false, 10, 0, 0⟩) from rfl]
  norm_num [ratOfLit]

/-! ## General lemmas about the scoring engine -/

theorem calculateUpsidePotential_ok {fs ts : String} {f t : ℚ}
    (hf : parseCurrencyToFloat fs = some f) (ht : parseCurrencyToFloat ts = some t)
    (h0 : f ≠ 0) :
    calculateUpsidePotential fs ts = .ok ((t - f) / f * 100) := by
  unfold calculateUpsidePotential
  rw [hf, ht]
  simp [h0]

theorem foldl_add_map_sum (f : String → ℚ) (l : List String) (init : ℚ) :
    l.foldl (fun acc c => acc + f c) init = init + (l.map f).sum := by
  induction l generalizing init with
  | nil => simp
  | cons a t ih => simp [List.foldl, ih]; ring

theorem calculateScore_eq (s : Stock) {u : ℚ} (h : GetUpside s = .ok u) :
    calculateScore s
      = .ok (min (u * 2) 100 + (s.classifications.map classificationBonus).sum
          + ratingBonus s.ratingTo) := by
  unfold calculateScore
  rw [h]
  simp [foldl_add_map_sum]

theorem classificationBonus_eq_specLabelTable (l : String) :
    classificationBonus l = specLabelTable l := by
  unfold classificationBonus specLabelTable
  split <;> simp_all

theorem ratingBonus_eq_specRatingBonus (r : String) :
    ratingBonus r = specRatingBonus r := by
  unfold ratingBonus specRatingBonus
  split <;> simp_all

theorem GetUpside_stockA : GetUpside stockA = .ok 10 := by
  rw [show GetUpside stockA = calculateUpsidePotential "$100.00" "$110.00" from rfl,
    calculateUpsidePotential_ok parseCurrency_100 parseCurrency_110 (by norm_num)]
  norm_num

theorem GetUpside_stockB : GetUpside stockB = .ok 10 := by
  rw [show GetUpside stockB = calculateUpsidePotential "$100.00" "$110.00" from rfl,
    calculateUpsidePotential_ok parseCurrency_100 parseCurrency_110 (by norm_num)]
  norm_num

theorem ratingBonus_empty : ratingBonus "" = 0 := rfl

theorem calculateScore_stockA : calculateScore stockA = .ok 20 := by
  rw [calculateScore_eq stockA GetUpside_stockA]
  norm_num [show stockA.classifications = [] from rfl,
    show stockA.ratingTo = "" from rfl, ratingBonus_empty, min_def]

theorem calculateScore_stockB : calculateScore stockB = .ok 20 := by
  rw [calculateScore_eq stockB GetUpside_stockB]
  norm_num [show stockB.classifications = [] from rfl,
    show stockB.ratingTo = "" from rfl, ratingBonus_empty, min_def]

theorem scoreD_stockA : scoreD stockA = 20 := by
  simp [scoreD, calculateScore_stockA, Except.toOption]

theorem scoreD_stockB : scoreD stockB = 20 := by
  simp [scoreD, calculateScore_stockB, Except.toOption]

theorem getRationale_stockA : getRationale stockA = .ok "Solid fundamentals" := by
  unfold getRationale
  rw [GetUpside_stockA]
  norm_num [show stockA.classifications = [] from rfl]

theorem getRationale_stockB : getRationale stockB = .ok "Solid fundamentals" := by
  unfold getRationale
  rw [GetUpside_stockB]
  norm_num [show stockB.classifications = [] from rfl]

/-! ## Lemmas about the response-building loop -/

theorem mkRecommendation_eq (pos : ℕ) (s : Stock) {sc : ℚ} {ra : String}
    (hsc : calculateScore s = .ok sc) (hra : getRationale s = .ok ra) :
    mkRecommendation pos s = .ok ⟨pos, s.ticker, s.company, sc, ra⟩ := by
  unfold mkRecommendation
  rw [hsc, hra]
  rfl

theorem mkRecommendation_error (pos : ℕ) (s : Stock) {e : String}
    (he : calculateScore s = .error e) :
    mkRecommendation pos s = .error e := by
  unfold mkRecommendation
  rw [he]
  rfl

theorem buildRecsFrom_ok_length {pos : ℕ} {l : List Stock} {rs : List Recommendation}
    (h : buildRecsFrom pos l = .ok rs) : rs.length = l.length := by
  induction l generalizing pos rs with
  | nil =>
    simp only [buildRecsFrom] at h
    cases h
    rfl
  | cons s rest ih =>
    simp only [buildRecsFrom] at h
    cases hmk : mkRecommendation pos s with
    | error e => rw [hmk] at h; cases h
    | ok r =>
      rw [hmk] at h
      cases hrec : buildRecsFrom (pos + 1) rest with
      | error e => rw [hrec] at h; cases h
      | ok rs2 =>
        rw [hrec] at h
        cases h
        simp [ih hrec]

theorem buildRecsFrom_ok_get {pos : ℕ} {l : List Stock} {rs : List Recommendation}
    (h : buildRecsFrom pos l = .ok rs) :
    ∀ i (hi : i < l.length) (hj : i < rs.length),
      mkRecommendation (pos + i) (l.get ⟨i, hi⟩) = .ok (rs.get ⟨i, hj⟩) := by
  induction l generalizing pos rs with
  | nil => intro i hi; cases hi
  | cons s rest ih =>
    simp only [buildRecsFrom] at h
    cases hmk : mkRecommendation pos s with
    | error e => rw [hmk] at h; cases h
    | ok r =>
      rw [hmk] at h
      cases hrec : buildRecsFrom (pos + 1) rest with
      | error e => rw [hrec] at h; cases h
      | ok rs2 =>
        rw [hrec] at h
        cases h
        intro i hi hj
        cases i with
        | zero => simpa using hmk
        | succ n =>
          have := ih hrec n (by simpa using hi) (by simpa using hj)
          simpa [Nat.add_assoc, Nat.add_comm 1 n] using this

theorem buildRecsFrom_error_of_mem {l : List Stock} {s : Stock} (hs : s ∈ l) {e : String}
    (he : calculateScore s = .error e) :
    ∀ pos, ∃ e2, buildRecsFrom pos l = .error e2 := by
  induction l with
  | nil => cases hs
  | cons a rest ih =>
    intro pos
    rcases List.mem_cons.mp hs with rfl | hmem
    · exact ⟨e, by simp only [buildRecsFrom]; rw [mkRecommendation_error pos s he]; rfl⟩
    · cases hmk : mkRecommendation pos a with
      | error e3 => exact ⟨e3, by simp only [buildRecsFrom]; rw [hmk]; rfl⟩
      | ok r =>
        obtain ⟨e2, h2⟩ := ih hmem (pos + 1)
        exact ⟨e2, by simp only [buildRecsFrom]; rw [hmk, h2]; rfl⟩

/-! ## Lemmas about the classification engine -/

theorem mem_classify_iff (s : Stock) (l : String) :
    l ∈ classify s ↔
      l = sectorLabel s.company ∨ l ∈ momentumLabels s ∨ l ∈ actionLabels s.action
        ∨ l ∈ ratingLabels s.ratingTo := by
  unfold classify
  simp [List.isEmpty]

theorem sectorLabel_cases (c : String) :
    sectorLabel c = "Biotech" ∨ sectorLabel c = "Tech" ∨ sectorLabel c = "Financial"
      ∨ sectorLabel c = "Energy" ∨ sectorLabel c = "Other Sector" := by
  unfold sectorLabel
  split_ifs <;> simp

theorem actionLabels_cases (a : String) :
    actionLabels a = ["Bullish Signal"] ∨ actionLabels a = ["Bearish Signal"]
      ∨ actionLabels a = ["New Coverage"] ∨ actionLabels a = [] := by
  unfold actionLabels
  dsimp only
  split_ifs <;> simp

theorem ratingLabels_cases (r : String) :
    ratingLabels r = ["Analyst Positive"] ∨ ratingLabels r = ["Analyst Negative"]
      ∨ ratingLabels r = [] := by
  unfold ratingLabels
  split_ifs <;> simp

/-- The two momentum labels can only come from the momentum source. -/
theorem momentum_label_mem_classify (s : Stock) (l : String)
    (hl : l = "High-Risk Speculative" ∨ l = "Potential Growth") :
    l ∈ classify s ↔ l ∈ momentumLabels s := by
  rw [mem_classify_iff]
  constructor
  · rintro (h | h | h | h)
    · rcases sectorLabel_cases s.company with hs | hs | hs | hs | hs <;>
        rcases hl with rfl | rfl <;> rw [hs] at h <;> simp_all
    · exact h
    · rcases actionLabels_cases s.action with ha | ha | ha | ha <;>
        rw [ha] at h <;> rcases hl with rfl | rfl <;> simp_all
    · rcases ratingLabels_cases s.ratingTo with hr | hr | hr <;>
        rw [hr] at h <;> rcases hl with rfl | rfl <;> simp_all
  · intro h
    exact Or.inr (Or.inl h)

theorem momentumLabels_eq_of_pos (s : Stock) {pf pt : ℚ}
    (hf : parsePrice s.targetFrom = some pf) (ht : parsePrice s.targetTo = some pt)
    (hpos : 0 < pf) :
    momentumLabels s =
      (if (pt - pf) / pf * 100 < -20 then ["High-Risk Speculative"]
       else if (pt - pf) / pf * 100 > 10 then ["Potential Growth"]
       else []) := by
  unfold momentumLabels
  rw [hf, ht]
  simp [hpos]

theorem momentumLabels_empty_of_skip (s : Stock)
    (h : parsePrice s.targetFrom = none ∨ parsePrice s.targetTo = none
      ∨ ∃ pf, parsePrice s.targetFrom = some pf ∧ pf ≤ 0) :
    momentumLabels s = [] := by
  unfold momentumLabels
  rcases h with h | h | ⟨pf, hf, hle⟩
  · rw [h]
  · rw [h]
    cases parsePrice s.targetFrom <;> rfl
  · rw [hf]
    cases parsePrice s.targetTo with
    | none => rfl
    | some pt => simp [not_lt.mpr hle]

/-! ## Lemmas about the filter translator -/

/-- The error behaviour of `applyFilter` does not depend on the conditions
already accumulated on the query: the function only appends one condition. -/
theorem applyFilter_shift (conds : List Cond) (field : String) (filter : Filter) :
    applyFilter conds field filter = (applyFilter [] field filter).map (fun cs => conds ++ cs) := by
  unfold applyFilter
  by_cases h : (field == "classifications") = true <;>
    by_cases hm1 : filter.matchMode ∈ arrayMatchModes <;>
    by_cases hm2 : filter.matchMode ∈ scalarMatchModes <;>
    cases hx : extractStringArr field filter.value <;>
    simp [h, hm1, hm2, hx, Except.map]

theorem mapExcept_str_ok (field : String) (l : List GoValue)
    (h : ∀ v ∈ l, ∃ s, v = GoValue.str s) :
    ∃ arr, mapExcept (fun v => match v with
      | GoValue.str s => Except.ok s
      | _ => Except.error (FilterErr.invalidValueTypeInArray field)) l = .ok arr := by
  induction l with
  | nil => exact ⟨[], rfl⟩
  | cons a t ih =>
    obtain ⟨s, rfl⟩ := h a (by simp)
    obtain ⟨arr, harr⟩ := ih (fun v hv => h v (by simp [hv]))
    refine ⟨s :: arr, ?_⟩
    simp only [mapExcept]
    rw [harr]
    rfl

theorem mapExcept_str_error (field : String) (l : List GoValue) (w : GoValue)
    (hw : w ∈ l) (hwne : ∀ s, w ≠ GoValue.str s) :
    mapExcept (fun v => match v with
      | GoValue.str s => Except.ok s
      | _ => Except.error (FilterErr.invalidValueTypeInArray field)) l
      = .error (.invalidValueTypeInArray field) := by
  induction l with
  | nil => cases hw
  | cons a t ih =>
    rcases List.mem_cons.mp hw with rfl | hmem
    · cases w with
      | str s => exact absurd rfl (hwne s)
      | strList l2 => rfl
      | anyList l2 => rfl
      | num n => rfl
      | boolean b => rfl
    · cases a with
      | str s =>
        simp only [mapExcept]
        rw [ih hmem]
        rfl
      | strList l2 => rfl
      | anyList l2 => rfl
      | num n => rfl
      | boolean b => rfl

theorem extractStringArr_ok_of_wellTyped (field : String) (v : GoValue)
    (h : wellTypedClassValue v) : ∃ arr, extractStringArr field v = .ok arr := by
  cases v with
  | str s => exact ⟨[s], rfl⟩
  | strList l => exact ⟨l, rfl⟩
  | anyList l => exact mapExcept_str_ok field l h
  | num n => exact absurd h (by simp [wellTypedClassValue])
  | boolean b => exact absurd h (by simp [wellTypedClassValue])

theorem extractStringArr_error_of_illTyped (field : String) (v : GoValue)
    (h : ¬ wellTypedClassValue v) :
    ∃ e, extractStringArr field v = .error e ∧ e.isInvalidValueType = true := by
  cases v with
  | str s => exact absurd trivial h
  | strList l => exact absurd trivial h
  | anyList l =>
    have h2 : ¬ (∀ v ∈ l, ∃ s, v = GoValue.str s) := h
    push_neg at h2
    obtain ⟨w, hw, hwne⟩ := h2
    exact ⟨.invalidValueTypeInArray field, mapExcept_str_error field l w hw hwne, rfl⟩
  | num n => exact ⟨.invalidValueType field, rfl, rfl⟩
  | boolean b => exact ⟨.invalidValueType field, rfl, rfl⟩

/-- One failing filter anywhere in the filter set aborts the whole loop. -/
theorem applyFilters_error_of_mem (conds : List Cond) (pre post : List (String × Filter))
    (field : String) (filter : Filter) {e : FilterErr}
    (h : applyFilter [] field filter = .error e) :
    ∃ e2, applyFilters conds (pre ++ (field, filter) :: post) = .error e2 := by
  induction pre generalizing conds with
  | nil =>
    refine ⟨e, ?_⟩
    have : applyFilter conds field filter = .error e := by
      rw [applyFilter_shift, h]; rfl
    simp only [List.nil_append, applyFilters]
    rw [this]
  | cons p rest ih =>
    cases hh : applyFilter conds p.1 p.2 with
    | error e3 =>
      refine ⟨e3, ?_⟩
      simp only [List.cons_append, applyFilters]
      rw [hh]
    | ok conds2 =>
      obtain ⟨e2, h2⟩ := ih conds2
      refine ⟨e2, ?_⟩
      simp only [List.cons_append, applyFilters, List.append_eq]
      rw [hh]
      exact h2

/-! ## Claim theorems -/

/-- C2: for every event whose `targetFrom` and `targetTo` parse as currency
and whose `targetFrom` is non-zero, the computed score equals
`min(upside * 2, 100)` plus the fixed label point table summed over the
labels plus the rating bonus, with
`upside = (targetTo - targetFrom) / targetFrom * 100`. -/
theorem claim2_calculateScore_matches_spec (s : Stock) (pf pt : ℚ)
    (hf : parseCurrencyToFloat s.targetFrom = some pf)
    (ht : parseCurrencyToFloat s.targetTo = some pt)
    (h0 : pf ≠ 0) :
    calculateScore s
      = .ok (specScore s.classifications s.ratingTo ((pt - pf) / pf * 100)) := by
  have hup : GetUpside s = .ok ((pt - pf) / pf * 100) := by
    unfold GetUpside
    exact calculateUpsidePotential_ok hf ht h0
  rw [calculateScore_eq s hup]
  unfold specScore
  rw [ratingBonus_eq_specRatingBonus,
    funext classificationBonus_eq_specLabelTable]

/-- Witness for C2 at the concrete stock `aaplStock`:
score `min(30, 100) + (30 + 25) + 40 = 125`. -/
theorem claim2_witness :
    parseCurrencyToFloat aaplStock.targetFrom = some 100
    ∧ parseCurrencyToFloat aaplStock.targetTo = some 115
    ∧ (100 : ℚ) ≠ 0
    ∧ calculateScore aaplStock = .ok 125 := by
  refine ⟨parseCurrency_100, parseCurrency_115, by norm_num, ?_⟩
  rw [claim2_calculateScore_matches_spec aaplStock 100 115 parseCurrency_100
    parseCurrency_115 (by norm_num)]
  have hl : (["Potential Growth", "Bullish Signal"].map specLabelTable).sum = 55 := by
    simp only [List.map_cons, List.map_nil, List.sum_cons, List.sum_nil]
    rw [show specLabelTable "Potential Growth" = 30 from by
        unfold specLabelTable; rw [if_pos rfl],
      show specLabelTable "Bullish Signal" = 25 from by
        unfold specLabelTable; rw [if_neg (by decide), if_pos rfl]]
    norm_num
  unfold specScore
  rw [show aaplStock.classifications = ["Potential Growth", "Bullish Signal"] from rfl,
    show aaplStock.ratingTo = "Strong-Buy" from rfl, hl,
    show specRatingBonus "Strong-Buy" = 40 from by
      unfold specRatingBonus; rw [if_pos rfl]]
  norm_num [min_def]

/-- C3 (counterexample): on a stock matched by no classification rule,
`Classify` yields exactly `Other Sector` — not `Neutral` as the claim
states — because the sector switch falls back to `Other Sector`, so the
`Neutral` default of step 5 never fires. -/
theorem claim3_counterexample :
    noRuleMatches emptyStock ∧ classify emptyStock = ["Other Sector"]
      ∧ "Neutral" ∉ classify emptyStock :=
  ⟨by decide, by decide, by decide⟩

/-- C3 (amended): for every event on which no classification rule matches,
`Classify` yields exactly the label set consisting of `Other Sector`. -/
theorem claim3_no_match_other_sector (s : Stock) (h : noRuleMatches s) :
    classify s = ["Other Sector"] := by
  obtain ⟨h1, h2, h3, h4⟩ := h
  simp only [Bool.or_eq_false_iff] at h1
  obtain ⟨⟨⟨hb, ht⟩, hf⟩, he⟩ := h1
  have hsec : sectorLabel s.company = "Other Sector" := by
    unfold sectorLabel
    simp [hb, ht, hf, he]
  unfold classify
  rw [hsec, h2, h3, h4]
  rfl

/-- Witness for the amended C3 at the concrete stock `emptyStock`. -/
theorem claim3_witness :
    noRuleMatches emptyStock ∧ classify emptyStock = ["Other Sector"] :=
  ⟨by decide, claim3_no_match_other_sector emptyStock (by decide)⟩

/-- C5 (counterexample): on a stock whose `targetFrom` parses to the
negative price `-10` and whose `targetTo` parses to `10`, the percentage
change `-200` is below `-20`, yet `Classify` assigns no
`High-Risk Speculative` label: the source skips the momentum source for
every non-positive `targetFrom`, not only for zero. -/
theorem claim5_counterexample :
    parsePrice negStock.targetFrom = some (-10)
    ∧ parsePrice negStock.targetTo = some 10
    ∧ ((-10 : ℚ)) ≠ 0
    ∧ ((10 - (-10)) / (-10) * 100 : ℚ) < -20
    ∧ "High-Risk Speculative" ∉ classify negStock := by
  refine ⟨parsePrice_neg10, parsePrice_10, by norm_num, by norm_num, ?_⟩
  have hm : momentumLabels negStock = [] :=
    momentumLabels_empty_of_skip negStock
      (Or.inr (Or.inr ⟨-10, parsePrice_neg10, by norm_num⟩))
  rw [momentum_label_mem_classify negStock _ (Or.inl rfl), hm]
  simp

/-- C5 (amended): if either target price fails currency parsing or
`targetFrom` parses to a non-positive value, `Classify` assigns no momentum
label; otherwise, with `pct = (to - from) / from * 100`, it assigns
`High-Risk Speculative` exactly when `pct < -20` and `Potential Growth`
exactly when `pct > 10`. -/
theorem claim5_momentum_contract (s : Stock) :
    ((parsePrice s.targetFrom = none ∨ parsePrice s.targetTo = none
        ∨ ∃ pf, parsePrice s.targetFrom = some pf ∧ pf ≤ 0) →
      "High-Risk Speculative" ∉ classify s ∧ "Potential Growth" ∉ classify s)
    ∧ (∀ pf pt, parsePrice s.targetFrom = some pf → parsePrice s.targetTo = some pt →
        0 < pf →
        (("High-Risk Speculative" ∈ classify s ↔ (pt - pf) / pf * 100 < -20)
          ∧ ("Potential Growth" ∈ classify s ↔ (pt - pf) / pf * 100 > 10))) := by
  constructor
  · intro h
    have hm := momentumLabels_empty_of_skip s h
    constructor
    · rw [momentum_label_mem_classify s _ (Or.inl rfl), hm]
      simp
    · rw [momentum_label_mem_classify s _ (Or.inr rfl), hm]
      simp
  · intro pf pt hf ht hpos
    have hm := momentumLabels_eq_of_pos s hf ht hpos
    constructor
    · rw [momentum_label_mem_classify s _ (Or.inl rfl), hm]
      split_ifs with h1 h2
      · simp [h1]
      · simp [h1]
      · simp [h1]
    · rw [momentum_label_mem_classify s _ (Or.inr rfl), hm]
      split_ifs with h1 h2
      · refine ⟨fun h => absurd h (by decide), fun h => absurd h (by linarith)⟩
      · simp [h2]
      · simp [h2]

/-- Witness for the amended C5 at the concrete stock `hrStock`
(prices 100 → 70, a 30 percent drop). -/
theorem claim5_witness :
    parsePrice hrStock.targetFrom = some 100
    ∧ parsePrice hrStock.targetTo = some 70
    ∧ (0 : ℚ) < 100
    ∧ "High-Risk Speculative" ∈ classify hrStock := by
  refine ⟨parsePrice_100, parsePrice_70, by norm_num, ?_⟩
  exact ((claim5_momentum_contract hrStock).2 100 70 parsePrice_100 parsePrice_70
    (by norm_num)).1.mpr (by norm_num)

/-- C9: the persistence path substitutes the default `Neutral` label, so
persisting an event with empty classifications and re-reading it yields
exactly `["Neutral"]`, and the stored classification array is never
empty. -/
theorem claim9_persist_neutral (s : Stock) :
    (s.classifications = [] → persistAndReread s = ["Neutral"])
    ∧ stringArrayValue (beforeCreate s).classifications ≠ [] := by
  constructor
  · intro h
    unfold persistAndReread storageRoundTrip beforeCreate stringArrayValue
    simp [h]
  · unfold beforeCreate stringArrayValue
    by_cases h : s.classifications.isEmpty <;> simp_all

/-- Witness for C9 at the concrete stock `unlabeledStock`. -/
theorem claim9_witness :
    unlabeledStock.classifications = []
    ∧ persistAndReread unlabeledStock = ["Neutral"] :=
  ⟨rfl, (claim9_persist_neutral unlabeledStock).1 rfl⟩

/-- C1 (code defect): the ranking sorts with `sort.Slice`, whose contract
does not guarantee stability.  On the input `[stockA, stockB]` — two
distinct events with equal scores — the reordered slice
`[stockB, stockA]` satisfies the postcondition of the sort call, and the
recommendations built from it list the tickers as `["BBB", "AAA"]`,
violating the stable tie-breaking the claim requires (which would demand
`["AAA", "BBB"]`). -/
theorem claim1_tie_break_not_stable :
    sortSliceSpec [stockA, stockB] [stockB, stockA]
    ∧ scoreD stockA = scoreD stockB
    ∧ stockA ≠ stockB
    ∧ (GetStockRecommendations [stockB, stockA] 2).map
        (fun rs => rs.map Recommendation.ticker) = .ok ["BBB", "AAA"] := by
  refine ⟨⟨List.Perm.swap stockB stockA [], ?_⟩, ?_, by decide, ?_⟩
  · simp [List.pairwise_cons, scoreD_stockA, scoreD_stockB]
  · rw [scoreD_stockA, scoreD_stockB]
  · have hA := mkRecommendation_eq 2 stockA calculateScore_stockA getRationale_stockA
    have hB := mkRecommendation_eq 1 stockB calculateScore_stockB getRationale_stockB
    unfold GetStockRecommendations
    norm_num
    simp only [buildRecsFrom]
    rw [hB, hA]
    rfl

/-- C6: if the returned prefix of the sorted slice contains an event whose
target prices do not parse as currency or whose `targetFrom` parses to
zero, the whole ranking computation fails (the source panics inside
`calculateScore`), rather than skipping or zero-scoring that event. -/
theorem claim6_rank_aborts_on_malformed (stocks sorted : List Stock) (limit : ℕ)
    (s : Stock) (hsort : sortSliceSpec stocks sorted)
    (hmem : s ∈ sorted.take (if limit > sorted.length then sorted.length else limit))
    (hbad : parseCurrencyToFloat s.targetFrom = none
      ∨ parseCurrencyToFloat s.targetTo = none
      ∨ parseCurrencyToFloat s.targetFrom = some 0) :
    ∃ e, GetStockRecommendations sorted limit = .error e := by
  have hup : ∃ e, GetUpside s = .error e := by
    unfold GetUpside calculateUpsidePotential
    rcases hbad with h | h | h
    · rw [h]
      exact ⟨_, rfl⟩
    · cases hf : parseCurrencyToFloat s.targetFrom with
      | none => exact ⟨_, rfl⟩
      | some pf =>
        rw [h]
        exact ⟨_, rfl⟩
    · rw [h]
      cases ht : parseCurrencyToFloat s.targetTo with
      | none => exact ⟨_, rfl⟩
      | some pt => exact ⟨"no se puede dividir por cero", by simp⟩
  obtain ⟨e, he⟩ := hup
  have hscore : calculateScore s = .error e := by
    unfold calculateScore
    rw [he]
  obtain ⟨e2, h2⟩ := buildRecsFrom_error_of_mem hmem hscore 1
  exact ⟨e2, by unfold GetStockRecommendations; exact h2⟩

/-- Witness for C6 at the concrete one-element input `[badStock]`. -/
theorem claim6_witness :
    sortSliceSpec [badStock] [badStock]
    ∧ badStock ∈ ([badStock] : List Stock).take
        (if 1 > ([badStock] : List Stock).length then ([badStock] : List Stock).length else 1)
    ∧ parseCurrencyToFloat badStock.targetFrom = none
    ∧ ∃ e, GetStockRecommendations [badStock] 1 = .error e := by
  refine ⟨⟨List.Perm.refl _, by simp⟩, by simp, parseCurrency_NA, ?_⟩
  exact claim6_rank_aborts_on_malformed [badStock] [badStock] 1 badStock
    ⟨List.Perm.refl _, by simp⟩ (by simp) (Or.inl parseCurrency_NA)

/-- C10: `GetStockRecommendations` reorders its input slice in place —
after the call the slice contents (`sorted`) are a permutation of the
original events, sorted by score, with every event value preserved — and
the returned recommendations read positionally from this reordered
slice. -/
theorem claim10_frame (stocks sorted : List Stock) (limit : ℕ)
    (recs : List Recommendation) (hsort : sortSliceSpec stocks sorted)
    (hrun : GetStockRecommendations sorted limit = .ok recs) :
    sorted.Perm stocks
    ∧ (∀ s ∈ sorted, s ∈ stocks)
    ∧ sorted.Pairwise (fun a b => scoreD b ≤ scoreD a)
    ∧ recs.length = min limit sorted.length
    ∧ (∀ i (hi : i < sorted.length) (hj : i < recs.length),
        mkRecommendation (1 + i) (sorted.get ⟨i, hi⟩) = .ok (recs.get ⟨i, hj⟩)) := by
  obtain ⟨hperm, hpair⟩ := hsort
  have hperm2 := hperm.symm
  simp only [GetStockRecommendations] at hrun
  have hlen := buildRecsFrom_ok_length hrun
  rw [List.length_take] at hlen
  refine ⟨hperm2, fun s hs => hperm2.mem_iff.mp hs, hpair, ?_, ?_⟩
  · rw [hlen]
    split_ifs with h <;> omega
  · intro i hi hj
    have hi2 : i < (sorted.take
        (if limit > sorted.length then sorted.length else limit)).length := by
      rw [List.length_take]
      omega
    have h3 := buildRecsFrom_ok_get hrun i hi2 hj
    rw [List.get_eq_getElem, List.getElem_take] at h3
    exact h3

/-- Witness for C10 at the concrete input `[stockA]` with limit 1. -/
theorem claim10_witness :
    sortSliceSpec [stockA] [stockA]
    ∧ GetStockRecommendations [stockA] 1
        = .ok [⟨1, "AAA", "", 20, "Solid fundamentals"⟩]
    ∧ ([(⟨1, "AAA", "", 20, "Solid fundamentals"⟩ : Recommendation)]).length
        = min 1 ([stockA] : List Stock).length := by
  have hsort : sortSliceSpec [stockA] [stockA] := ⟨List.Perm.refl _, by simp⟩
  have hrun : GetStockRecommendations [stockA] 1
      = .ok [⟨1, "AAA", "", 20, "Solid fundamentals"⟩] := by
    unfold GetStockRecommendations
    norm_num
    simp only [buildRecsFrom]
    rw [mkRecommendation_eq 1 stockA calculateScore_stockA getRationale_stockA]
    rfl
  exact ⟨hsort, hrun, (claim10_frame [stockA] [stockA] 1 _ hsort hrun).2.2.2.1⟩

/-- C4 (counterexample): a `classifications` filter whose match mode
`weird` is outside the supported vocabulary but whose value is the number
42 yields the invalid-value-type error, not the unsupported-match-mode
error the claim promises for every filter with an unsupported mode: the
value-type check runs first. -/
theorem claim4_counterexample :
    "weird" ∉ arrayMatchModes
    ∧ applyFilter [] "classifications" ⟨GoValue.num 42, "weird"⟩
        = .error (.invalidValueType "classifications")
    ∧ ∀ m, (FilterErr.invalidValueType "classifications")
        ≠ FilterErr.unsupportedMatchMode m :=
  ⟨by decide, rfl, fun m h => FilterErr.noConfusion h⟩

/-- C4 (amended): an unsupported match mode is rejected with the
unsupported-match-mode error — for scalar fields always, and for the
`classifications` field whenever the value passes the type check; a
`classifications` value that is not a string, a sequence of strings, or a
sequence of opaque values each being a string is rejected with an
invalid-value-type error; and any failing filter aborts the whole filter
set rather than being skipped. -/
theorem claim4_filter_error_contract :
    (∀ conds field filter, field ≠ "classifications" →
        filter.matchMode ∉ scalarMatchModes →
        applyFilter conds field filter
          = .error (.unsupportedMatchMode filter.matchMode))
    ∧ (∀ conds filter, wellTypedClassValue filter.value →
        filter.matchMode ∉ arrayMatchModes →
        applyFilter conds "classifications" filter
          = .error (.unsupportedMatchMode filter.matchMode))
    ∧ (∀ conds filter, ¬ wellTypedClassValue filter.value →
        ∃ e, applyFilter conds "classifications" filter = .error e
          ∧ e.isInvalidValueType = true)
    ∧ (∀ conds pre post field filter e, applyFilter [] field filter = .error e →
        ∃ e2, applyFilters conds (pre ++ (field, filter) :: post) = .error e2) := by
  refine ⟨?_, ?_, ?_, ?_⟩
  · intro conds field filter hfield hmode
    unfold applyFilter
    simp [hfield, hmode]
  · intro conds filter hwt hmode
    obtain ⟨arr, harr⟩ := extractStringArr_ok_of_wellTyped "classifications" filter.value hwt
    unfold applyFilter
    simp [harr, hmode]
  · intro conds filter hbad
    obtain ⟨e, he, hkind⟩ := extractStringArr_error_of_illTyped "classifications" filter.value hbad
    refine ⟨e, ?_, hkind⟩
    unfold applyFilter
    simp [he]
  · intro conds pre post field filter e h
    exact applyFilters_error_of_mem conds pre post field filter h

/-- Witness for the amended C4: a scalar filter with the unknown mode
`bogus` is rejected and aborts a two-filter set. -/
theorem claim4_witness :
    "bogus" ∉ scalarMatchModes
    ∧ applyFilter [] "company" ⟨GoValue.str "Apple", "bogus"⟩
        = .error (.unsupportedMatchMode "bogus")
    ∧ ∃ e2, applyFilters []
        [("ticker", ⟨GoValue.str "A", "equals"⟩),
         ("company", ⟨GoValue.str "Apple", "bogus"⟩)] = .error e2 := by
  have h1 := claim4_filter_error_contract.1 [] "company"
    ⟨GoValue.str "Apple", "bogus"⟩ (by decide) (by decide)
  refine ⟨by decide, h1, ?_⟩
  have h2 := claim4_filter_error_contract.2.2.2 []
    [("ticker", ⟨GoValue.str "A", "equals"⟩)] [] "company"
    ⟨GoValue.str "Apple", "bogus"⟩ _ h1
  simpa using h2

/-- C7 (counterexample): on a request with a sort field outside the
allowlist and a sort order outside `{1, -1}` at once, the source validates
the sort field before the sort-order value, so it reports the sort-field
error, while the order the claim lists (sort-order value check before the
sort-field allowlist check) would report the sort-order error. -/
theorem claim7_counterexample :
    Find (.ok []) (.ok 0) ⟨1, 1, "bogus", 7⟩ [] = .error (.invalidSortField "bogus")
    ∧ findClaimOrder (.ok []) (.ok 0) ⟨1, 1, "bogus", 7⟩ []
        = .error (.invalidSortOrder 7)
    ∧ Find (.ok []) (.ok 0) ⟨1, 1, "bogus", 7⟩ []
        ≠ findClaimOrder (.ok []) (.ok 0) ⟨1, 1, "bogus", 7⟩ [] := by
  refine ⟨rfl, rfl, ?_⟩
  rw [show Find (.ok []) (.ok 0) ⟨1, 1, "bogus", 7⟩ []
      = .error (.invalidSortField "bogus") from rfl,
    show findClaimOrder (.ok []) (.ok 0) ⟨1, 1, "bogus", 7⟩ []
      = .error (.invalidSortOrder 7) from rfl]
  simp

theorem Find_sortField_ne_empty (p : PaginationParams) :
    (if p.sortField = "" then "time" else p.sortField) ≠ "" := by
  split_ifs with h
  · decide
  · exact h

theorem Find_invalidPage (rf : Except String (List Stock)) (rc : Except String ℤ)
    (p : PaginationParams) (filters : List (String × Filter)) (h : p.page ≤ 0) :
    Find rf rc p filters = .error (.invalidPage p.page) := by
  unfold Find
  rw [if_pos h]

theorem Find_invalidPageSize (rf : Except String (List Stock)) (rc : Except String ℤ)
    (p : PaginationParams) (filters : List (String × Filter))
    (h1 : ¬ p.page ≤ 0) (h2 : p.pageSize ≤ 0) :
    Find rf rc p filters = .error (.invalidPageSize p.pageSize) := by
  unfold Find
  rw [if_neg h1, if_pos h2]

theorem Find_invalidSortField (rf : Except String (List Stock)) (rc : Except String ℤ)
    (p : PaginationParams) (filters : List (String × Filter))
    (h1 : ¬ p.page ≤ 0) (h2 : ¬ p.pageSize ≤ 0)
    (h3 : ¬ isValidField (if p.sortField = "" then "time" else p.sortField) = true) :
    Find rf rc p filters
      = .error (.invalidSortField (if p.sortField = "" then "time" else p.sortField)) := by
  unfold Find
  rw [if_neg h1, if_neg h2, if_pos ⟨Find_sortField_ne_empty p, h3⟩]

theorem Find_invalidSortOrder (rf : Except String (List Stock)) (rc : Except String ℤ)
    (p : PaginationParams) (filters : List (String × Filter))
    (h1 : ¬ p.page ≤ 0) (h2 : ¬ p.pageSize ≤ 0)
    (h3 : isValidField (if p.sortField = "" then "time" else p.sortField) = true)
    (h4 : (if p.sortOrder = 0 then -1 else p.sortOrder) ≠ 1
      ∧ (if p.sortOrder = 0 then -1 else p.sortOrder) ≠ -1) :
    Find rf rc p filters
      = .error (.invalidSortOrder (if p.sortOrder = 0 then -1 else p.sortOrder)) := by
  unfold Find
  rw [if_neg h1, if_neg h2, if_neg (fun hc => hc.2 h3), if_pos h4]

theorem Find_invalidFilterField (rf : Except String (List Stock)) (rc : Except String ℤ)
    (p : PaginationParams) (filters : List (String × Filter)) (f : String)
    (h1 : ¬ p.page ≤ 0) (h2 : ¬ p.pageSize ≤ 0)
    (h3 : isValidField (if p.sortField = "" then "time" else p.sortField) = true)
    (h4 : ¬ ((if p.sortOrder = 0 then -1 else p.sortOrder) ≠ 1
      ∧ (if p.sortOrder = 0 then -1 else p.sortOrder) ≠ -1))
    (h5 : firstInvalidFilterField filters = some f) :
    Find rf rc p filters = .error (.invalidFilterField f) := by
  unfold Find
  rw [if_neg h1, if_neg h2, if_neg (fun hc => hc.2 h3), if_neg h4, h5]

theorem Find_success (rows : List Stock) (total : ℤ)
    (p : PaginationParams) (filters : List (String × Filter))
    (h1 : ¬ p.page ≤ 0) (h2 : ¬ p.pageSize ≤ 0)
    (h3 : isValidField (if p.sortField = "" then "time" else p.sortField) = true)
    (h4 : ¬ ((if p.sortOrder = 0 then -1 else p.sortOrder) ≠ 1
      ∧ (if p.sortOrder = 0 then -1 else p.sortOrder) ≠ -1))
    (h5 : firstInvalidFilterField filters = none) :
    Find (.ok rows) (.ok total) p filters = .ok (rows, total) := by
  unfold Find
  rw [if_neg h1, if_neg h2, if_neg (fun hc => hc.2 h3), if_neg h4, h5]

/-- C7 (amended): `Find` validates, failing fast with an error naming the
offending value or field and independently of the storage collaborators:
page > 0; pageSize > 0; the sort field (defaulted to `time` when empty)
must pass the allowlist; the sort order (defaulted to `-1` when zero) must
be `1` or `-1`; every filter field must pass the allowlist.  On success it
returns the rows and the total count from the collaborators. -/
theorem claim7_find_validation_contract (rf : Except String (List Stock))
    (rc : Except String ℤ) (p : PaginationParams)
    (filters : List (String × Filter)) :
    (p.page ≤ 0 → Find rf rc p filters = .error (.invalidPage p.page))
    ∧ (0 < p.page → p.pageSize ≤ 0 →
        Find rf rc p filters = .error (.invalidPageSize p.pageSize))
    ∧ (0 < p.page → 0 < p.pageSize →
        (¬ isValidField (if p.sortField = "" then "time" else p.sortField) →
          Find rf rc p filters
            = .error (.invalidSortField
                (if p.sortField = "" then "time" else p.sortField)))
        ∧ (isValidField (if p.sortField = "" then "time" else p.sortField) →
            (if p.sortOrder = 0 then -1 else p.sortOrder) ≠ 1 →
            (if p.sortOrder = 0 then -1 else p.sortOrder) ≠ -1 →
            Find rf rc p filters
              = .error (.invalidSortOrder
                  (if p.sortOrder = 0 then -1 else p.sortOrder)))
        ∧ (isValidField (if p.sortField = "" then "time" else p.sortField) →
            ((if p.sortOrder = 0 then -1 else p.sortOrder) = 1
              ∨ (if p.sortOrder = 0 then -1 else p.sortOrder) = -1) →
            (∀ f, firstInvalidFilterField filters = some f →
              Find rf rc p filters = .error (.invalidFilterField f))
            ∧ (firstInvalidFilterField filters = none →
                ∀ rows total, rf = .ok rows → rc = .ok total →
                  Find rf rc p filters = .ok (rows, total))))
    ∧ (∀ rf2 rc2,
        (p.page ≤ 0 ∨ p.pageSize ≤ 0
          ∨ ¬ isValidField (if p.sortField = "" then "time" else p.sortField)
          ∨ ((if p.sortOrder = 0 then -1 else p.sortOrder) ≠ 1
              ∧ (if p.sortOrder = 0 then -1 else p.sortOrder) ≠ -1)
          ∨ (∃ f, firstInvalidFilterField filters = some f)) →
        Find rf rc p filters = Find rf2 rc2 p filters) := by
  refine ⟨?_, ?_, ?_, ?_⟩
  · intro h
    exact Find_invalidPage rf rc p filters h
  · intro h1 h2
    exact Find_invalidPageSize rf rc p filters (not_le.mpr h1) h2
  · intro h1 h2
    refine ⟨?_, ?_, ?_⟩
    · intro hbad
      exact Find_invalidSortField rf rc p filters (not_le.mpr h1) (not_le.mpr h2) hbad
    · intro hok hbad1 hbad2
      exact Find_invalidSortOrder rf rc p filters (not_le.mpr h1) (not_le.mpr h2)
        hok ⟨hbad1, hbad2⟩
    · intro hok hord
      have hordok : ¬ ((if p.sortOrder = 0 then -1 else p.sortOrder) ≠ 1
          ∧ (if p.sortOrder = 0 then -1 else p.sortOrder) ≠ -1) := by
        rcases hord with h | h
        · exact fun hc => hc.1 h
        · exact fun hc => hc.2 h
      constructor
      · intro f hf
        exact Find_invalidFilterField rf rc p filters f (not_le.mpr h1)
          (not_le.mpr h2) hok hordok hf
      · intro hnone rows total hrf hrc
        rw [hrf, hrc]
        exact Find_success rows total p filters (not_le.mpr h1) (not_le.mpr h2)
          hok hordok hnone
  · intro rf2 rc2 hcond
    by_cases hp : p.page ≤ 0
    · rw [Find_invalidPage rf rc p filters hp, Find_invalidPage rf2 rc2 p filters hp]
    · by_cases hs : p.pageSize ≤ 0
      · rw [Find_invalidPageSize rf rc p filters hp hs,
          Find_invalidPageSize rf2 rc2 p filters hp hs]
      · by_cases hfv : isValidField (if p.sortField = "" then "time" else p.sortField) = true
        · by_cases horder : ((if p.sortOrder = 0 then -1 else p.sortOrder) ≠ 1
              ∧ (if p.sortOrder = 0 then -1 else p.sortOrder) ≠ -1)
          · rw [Find_invalidSortOrder rf rc p filters hp hs hfv horder,
              Find_invalidSortOrder rf2 rc2 p filters hp hs hfv horder]
          · rcases hcond with h | h | h | h | ⟨f, hf⟩
            · exact absurd h hp
            · exact absurd h hs
            · exact absurd hfv h
            · exact absurd h horder
            · rw [Find_invalidFilterField rf rc p filters f hp hs hfv horder hf,
                Find_invalidFilterField rf2 rc2 p filters f hp hs hfv horder hf]
        · rw [Find_invalidSortField rf rc p filters hp hs hfv,
            Find_invalidSortField rf2 rc2 p filters hp hs hfv]

/-- Witness for the amended C7: page 0 is rejected with an error naming
the value, for any storage outcome. -/
theorem claim7_witness :
    ((0 : ℤ) ≤ 0)
    ∧ Find (.ok []) (.ok 0) ⟨0, 5, "", 0⟩ [] = .error (.invalidPage 0) :=
  ⟨le_refl 0,
    (claim7_find_validation_contract (.ok []) (.ok 0) ⟨0, 5, "", 0⟩ []).1 (le_refl 0)⟩

end StockApi
